import Mathlib

/-!
Verification of the Tooka audio-node server core against its specification.

The development shallowly embeds the three subsystems the claims are about:

* the binary track codec (`encodeTrack` / `decodeTrack` in `src/utils`):
  a `Buffer` is modelled as `List Nat` (one entry per byte); a JavaScript
  string is modelled by the list of its UTF-8 bytes (`JStr`), so string
  equality is byte-list equality and `s.length ≤ 65535` is the UTF-8 byte
  bound checked by `writeUTF`.  The base64 transport layer
  (`Buffer.from(encoded, 'base64')` / `.toString('base64')`) is a bijective
  re-encoding of the byte sequence and is elided: the embedding works on
  the decoded bytes directly.
* the WebSocket session lifecycle (`src/index.ts`): the session map is a
  `List Session` in insertion order (a JS `Map` keyed by `sessionId`), and
  the upgrade / open / message / close handlers become pure functions of
  the store.  JS numbers reaching the resume logic are modelled by `JSNum`
  (an integer or `NaN`), reproducing `Math.max`, arithmetic, `>` and
  truthiness on `NaN`.
* the source-manager registry (`src/managers/sourceManager.ts`) and the
  `/v4/loadtracks` route decision.
-/

namespace Tooka

/-- Decidable equality of `Except` values (used to evaluate codec results
on concrete inputs). -/
instance {ε α : Type} [DecidableEq ε] [DecidableEq α] :
    DecidableEq (Except ε α) := fun a b =>
  match a, b with
  | .ok x, .ok y =>
    if h : x = y then isTrue (by rw [h])
    else isFalse (fun hh => h (by cases hh; rfl))
  | .error x, .error y =>
    if h : x = y then isTrue (by rw [h])
    else isFalse (fun hh => h (by cases hh; rfl))
  | .ok _, .error _ => isFalse (fun hh => by cases hh)
  | .error _, .ok _ => isFalse (fun hh => by cases hh)

/-- A JavaScript string, represented by its UTF-8 byte sequence. -/
abbrev JStr := List Nat

/-! ## Big-endian byte-level primitives -/

/-- Big-endian byte serialisation: `beBytes k n` is the `k`-byte big-endian
encoding of `n % 2^(8*k)` (the behaviour of `writeUInt16BE` /
`writeInt32BE` / `writeBigInt64BE` on in-range values). -/
def beBytes : Nat → Nat → List Nat
  | 0, _ => []
  | k + 1, n => n / 2 ^ (8 * k) % 256 :: beBytes k n

/-- Big-endian byte-list value, as read by `readUInt16BE` / `readInt32BE` /
`readBigInt64BE`. -/
def beVal (l : List Nat) : Nat := l.foldl (fun a b => a * 256 + b) 0

/-- Reinterpret an unsigned 64-bit value as the signed value
`readBigInt64BE` returns. -/
def toSigned64 (n : Nat) : Int :=
  if n < 2 ^ 63 then (n : Int) else (n : Int) - 2 ^ 64

/-- The unsigned 64-bit two's-complement image of a signed value, as
written by `writeBigInt64BE`. -/
def toNat64 (v : Int) : Nat := (v % 2 ^ 64).toNat

/-! ## Track data model (`TrackInfo` in `src/types.ts`) -/

structure TrackInfo where
  title : JStr
  author : JStr
  length : Int
  identifier : JStr
  isSeekable : Bool
  isStream : Bool
  uri : Option JStr
  artworkUrl : Option JStr
  isrc : Option JStr
  sourceName : JStr
  position : Int
deriving DecidableEq, Repr

/-- The decoded record returned by `decodeTrack` (the `encoded`, `pluginInfo`
and `userData` fields carry no information: the first echoes the input and
the last two are always empty objects). -/
structure TrackRecord where
  info : TrackInfo
  details : List (Option JStr)
deriving DecidableEq, Repr

/-- UTF-8 bytes of the literal `"__seekable:0"`. -/
def seekable0 : JStr := [95, 95, 115, 101, 101, 107, 97, 98, 108, 101, 58, 48]

/-- UTF-8 bytes of the literal `"__seekable:1"`. -/
def seekable1 : JStr := [95, 95, 115, 101, 101, 107, 97, 98, 108, 101, 58, 49]

/-! ## Decoder (`decodeTrack` in `src/utils`)

The source reads with an absolute cursor `position` and a bound check
`ensure(n)`: `position + n > buffer.length` throws.  Every sequential read
consumes the suffix `buffer.drop position`, so the header-to-`sourceName`
phase is embedded as a consuming parser; the cursor value is recovered as
`buffer.length - rest.length`.  The details region and the final
`startPositionMs` read use absolute offsets, exactly as the source does. -/

/-- The distinct failure sites of `decodeTrack`:
`empty` is `'Decode Error: Input string is null or empty'`,
`eob` is `'Unexpected end of buffer at position …'` from `ensure`,
`negOffset` is the `RangeError` thrown by `readBigInt64BE` on a negative
offset (reachable when `messageSize < 4`). -/
inductive DecErr where
  | empty : DecErr
  | eob : DecErr
  | negOffset : DecErr
deriving DecidableEq, Repr

/-- `read.byte`: `ensure(1)`, then `buffer[position++]`. -/
def rByte : List Nat → Except DecErr (Nat × List Nat)
  | [] => .error .eob
  | b :: rest => .ok (b, rest)

/-- `read.int`: `ensure(4)`, then `readInt32BE` (the two uses of the result
only look at bits 0-31, so the unsigned value is returned). -/
def rInt (l : List Nat) : Except DecErr (Nat × List Nat) :=
  if 4 ≤ l.length then .ok (beVal (l.take 4), l.drop 4) else .error .eob

/-- `read.long`: `ensure(8)`, then `readBigInt64BE`. -/
def rLong (l : List Nat) : Except DecErr (Int × List Nat) :=
  if 8 ≤ l.length then .ok (toSigned64 (beVal (l.take 8)), l.drop 8) else .error .eob

/-- `read.utf`: `ensure(2)`, `readUInt16BE` length, `ensure(length)`, bytes. -/
def rUTF (l : List Nat) : Except DecErr (JStr × List Nat) :=
  if 2 ≤ l.length then
    if beVal (l.take 2) ≤ (l.drop 2).length then
      .ok ((l.drop 2).take (beVal (l.take 2)), (l.drop 2).drop (beVal (l.take 2)))
    else .error .eob
  else .error .eob

/-- `readNullableText`: presence byte, then `read.utf` iff nonzero. -/
def rNullableText (l : List Nat) : Except DecErr (Option JStr × List Nat) :=
  match rByte l with
  | .error e => .error e
  | .ok (p, rest) =>
    if p ≠ 0 then
      match rUTF rest with
      | .error e => .error e
      | .ok (s, rest2) => .ok (some s, rest2)
    else .ok (none, rest)

/-- `const version = isVersioned ? read.byte() : 1`. -/
def readVersion (isVersioned : Bool) (l : List Nat) :
    Except DecErr (Nat × List Nat) :=
  if isVersioned then rByte l else .ok (1, l)

/-- A version-gated nullable field: `cond ? readNullableText() : null`. -/
def readOptField (cond : Bool) (l : List Nat) :
    Except DecErr (Option JStr × List Nat) :=
  if cond then rNullableText l else .ok (none, l)

/-- The fields read by `decodeTrack` before the details region. -/
structure HeadFields where
  messageSize : Nat
  version : Nat
  title : JStr
  author : JStr
  length : Int
  identifier : JStr
  isStream : Bool
  uri : Option JStr
  artworkUrl : Option JStr
  isrc : Option JStr
  sourceName : JStr
deriving DecidableEq, Repr

/-- The header-to-`sourceName` phase of `decodeTrack`.
`isVersioned = ((firstInt & 0xc0000000) >> 30) & 1` extracts bit 30
(the 32-bit sign plays no role after `& 1`), and
`messageSize = firstInt & 0x3fffffff` is the low 30 bits. -/
def decodeHead (buffer : List Nat) : Except DecErr (HeadFields × List Nat) := do
  let (firstInt, r) ← rInt buffer
  let (version, r) ← readVersion (firstInt.testBit 30) r
  let (title, r) ← rUTF r
  let (author, r) ← rUTF r
  let (length, r) ← rLong r
  let (identifier, r) ← rUTF r
  let (isStreamByte, r) ← rByte r
  let (uri, r) ← readOptField (decide (version ≥ 2)) r
  let (artworkUrl, r) ← readOptField (decide (version ≥ 3)) r
  let (isrc, r) ← readOptField (decide (version ≥ 3)) r
  let (sourceName, r) ← rUTF r
  pure ({ messageSize := firstInt % 2 ^ 30, version, title, author, length,
          identifier, isStream := decide (isStreamByte ≠ 0), uri, artworkUrl,
          isrc, sourceName }, r)

/-- The greedy nullable-entry loop over `detailsBuf`, with explicit fuel
(each iteration consumes at least one byte, so `detailsBuf.length` fuel is
never exhausted).  `break` on a truncated length prefix or a truncated
payload returns the entries parsed so far. -/
def parseDetailsGo : Nat → List Nat → List (Option JStr)
  | 0, _ => []
  | _ + 1, [] => []
  | fuel + 1, b :: rest =>
    if b = 0 then none :: parseDetailsGo fuel rest
    else
      match rest with
      | hi :: lo :: rest2 =>
        let len := hi * 256 + lo
        if len ≤ rest2.length then
          some (rest2.take len) :: parseDetailsGo fuel (rest2.drop len)
        else []
      | _ => []

/-- The `while (p < detailsBuf.length)` loop of `decodeTrack`. -/
def parseDetails (detailsBuf : List Nat) : List (Option JStr) :=
  parseDetailsGo detailsBuf.length detailsBuf

/-- `while (details.length && details[details.length-1] === null) pop()`. -/
def stripTrailingNulls (ds : List (Option JStr)) : List (Option JStr) :=
  (ds.reverse.dropWhile (fun x => x.isNone)).reverse

/-- The sentinel check on the last surviving entry: strips a trailing
`"__seekable:0"` / `"__seekable:1"` and records the override. -/
def applySentinel (ds : List (Option JStr)) : List (Option JStr) × Option Bool :=
  match ds.getLast? with
  | some (some s) =>
    if s = seekable0 then (ds.dropLast, some false)
    else if s = seekable1 then (ds.dropLast, some true)
    else (ds, none)
  | _ => (ds, none)

/-- Details post-processing: strip trailing nulls, then the sentinel. -/
def processDetails (ds : List (Option JStr)) : List (Option JStr) × Option Bool :=
  applySentinel (stripTrailingNulls ds)

/-- `buffer.subarray(position, positionOffset)` guarded by
`position < positionOffset` (`subarray` clamps the end to the buffer
length); an empty region otherwise. -/
def detailsRegion (buffer : List Nat) (pos : Nat) (off : Int) : List Nat :=
  if (pos : Int) < off then (buffer.take off.toNat).drop pos else []

/-- `position = positionOffset; read.long()`: `ensure(8)` against the
buffer length first, then `readBigInt64BE`, which rejects a negative
offset. -/
def readLongAt (buffer : List Nat) (off : Int) : Except DecErr Int :=
  if off + 8 > (buffer.length : Int) then .error .eob
  else if off < 0 then .error .negOffset
  else .ok (toSigned64 (beVal ((buffer.drop off.toNat).take 8)))

/-- The phase of `decodeTrack` after `sourceName`: details region between
the cursor and `headerEnd - 8`, then the final 8-byte signed
`startPositionMs` at the fixed offset `positionOffset = 4 + messageSize - 8`.
When the region is empty or skipped, `processDetails (parseDetails []) =
([], none)`, matching the source's untouched `details = []`,
`seekable = undefined`. -/
def finishDecode (buffer : List Nat) (h : HeadFields) (pos : Nat) :
    Except DecErr TrackRecord :=
  match readLongAt buffer ((4 + h.messageSize : Int) - 8) with
  | .error e => .error e
  | .ok trackPosition =>
    .ok { info := { title := h.title, author := h.author, length := h.length,
                    identifier := h.identifier,
                    isSeekable := (processDetails (parseDetails
                      (detailsRegion buffer pos
                        ((4 + h.messageSize : Int) - 8)))).2.getD (!h.isStream),
                    isStream := h.isStream, uri := h.uri,
                    artworkUrl := h.artworkUrl, isrc := h.isrc,
                    sourceName := h.sourceName, position := trackPosition },
          details := (processDetails (parseDetails
            (detailsRegion buffer pos ((4 + h.messageSize : Int) - 8)))).1 }

/-- `decodeTrack` on the decoded byte sequence of the input string (the
`!encoded` guard rejects the empty input). -/
def decodeTrack (buffer : List Nat) : Except DecErr TrackRecord :=
  if buffer.isEmpty then .error .empty
  else
    match decodeHead buffer with
    | .error e => .error e
    | .ok (h, rest) => finishDecode buffer h (buffer.length - rest.length)

/-- The declared extent of an encoded buffer: the 4 header bytes plus the
low 30 bits of the 4-byte header (`messageSize`). -/
def declaredEnd (buffer : List Nat) : Nat := 4 + beVal (buffer.take 4) % 2 ^ 30

/-! ## Encoder (`encodeTrack` in `src/utils`) -/

/-- The failure sites of `encodeTrack`: `'UTF string too long'`, and the
`RangeError` of `writeBigInt64BE` outside the signed 64-bit range. -/
inductive EncErr where
  | utfTooLong : EncErr
  | longOutOfRange : EncErr
deriving DecidableEq, Repr

/-- The bytes `writeUTF` emits: 2-byte big-endian length, then the string. -/
def utfChunk (s : JStr) : List Nat := beBytes 2 s.length ++ s

/-- `writeUTF`: rejects strings above 65535 UTF-8 bytes. -/
def writeUTF (s : JStr) : Except EncErr (List Nat) :=
  if s.length > 65535 then .error .utfTooLong else .ok (utfChunk s)

/-- `writeNullableText`: a `0` presence byte for `undefined`, `null` and
the empty string, else `1` and the string. -/
def writeNullableText : Option JStr → Except EncErr (List Nat)
  | none => .ok [0]
  | some [] => .ok [0]
  | some s => do
    let c ← writeUTF s
    pure (1 :: c)

/-- `writeLong`: `writeBigInt64BE` rejects values outside the signed
64-bit range, else writes the 8-byte two's-complement encoding. -/
def writeLong (v : Int) : Except EncErr (List Nat) :=
  if v < -(2 ^ 63) ∨ (2 ^ 63 : Int) ≤ v then .error .longOutOfRange
  else .ok (beBytes 8 (toNat64 v))

/-- The `for (const v of detailsOut) writeNullableText(v)` loop. -/
def writeDetails : List (Option JStr) → Except EncErr (List Nat)
  | [] => .ok []
  | v :: rest => do
    let c ← writeNullableText v
    let r ← writeDetails rest
    pure (c ++ r)

/-- `encodeTrack`.  `trackDetails` is `track.details` (`[]` when the input
carries no `details` array, as for a plain `TrackInfo`).  A `TrackInfo`
always has a boolean `isSeekable`, so
`typeof track.isSeekable === 'boolean'` selects it directly.  The sentinel
entry is appended exactly when the effective seekability differs from
`!isStream`; the header is the versioned-flag bit or-ed with the body
length. -/
def encodeTrack (track : TrackInfo) (trackDetails : List (Option JStr)) :
    Except EncErr (List Nat) := do
  let t ← writeUTF track.title
  let a ← writeUTF track.author
  let len ← writeLong track.length
  let idf ← writeUTF track.identifier
  let u ← writeNullableText track.uri
  let aw ← writeNullableText track.artworkUrl
  let ic ← writeNullableText track.isrc
  let sn ← writeUTF track.sourceName
  let detailsOut := trackDetails ++
    (if track.isSeekable != !track.isStream then
      [some (if track.isSeekable then seekable1 else seekable0)] else [])
  let dts ← writeDetails detailsOut
  let posC ← writeLong track.position
  let body := [3] ++ t ++ a ++ len ++ idf ++
    [if track.isStream then 1 else 0] ++ u ++ aw ++ ic ++ sn ++ dts ++ posC
  pure (beBytes 4 (2 ^ 30 ||| body.length) ++ body)

/-! ## Derived codec helpers used to state the claims -/

/-- A `TrackInfo` is valid when every string field fits the 16-bit length
prefix and the two time fields fit a signed 64-bit integer. -/
def ValidTrackInfo (t : TrackInfo) : Prop :=
  t.title.length ≤ 65535 ∧ t.author.length ≤ 65535 ∧
  t.identifier.length ≤ 65535 ∧ t.sourceName.length ≤ 65535 ∧
  (∀ s, t.uri = some s → s.length ≤ 65535) ∧
  (∀ s, t.artworkUrl = some s → s.length ≤ 65535) ∧
  (∀ s, t.isrc = some s → s.length ≤ 65535) ∧
  -(2 ^ 63) ≤ t.length ∧ t.length < 2 ^ 63 ∧
  -(2 ^ 63) ≤ t.position ∧ t.position < 2 ^ 63

instance (t : TrackInfo) : Decidable (ValidTrackInfo t) := by
  unfold ValidTrackInfo
  have : ∀ v : Option JStr, Decidable (∀ s, v = some s → s.length ≤ 65535) := by
    intro v
    match v with
    | none => exact isTrue (by intro s h; cases h)
    | some s =>
      by_cases h : s.length ≤ 65535
      · exact isTrue (by intro x hx; cases hx; exact h)
      · exact isFalse (by intro hall; exact h (hall s rfl))
  exact instDecidableAnd

/-- None of the nullable fields is a present-but-empty string (a
present-but-empty string is written as absent and decodes to `null`). -/
def NoEmptyNullable (t : TrackInfo) : Prop :=
  t.uri ≠ some [] ∧ t.artworkUrl ≠ some [] ∧ t.isrc ≠ some []

instance (t : TrackInfo) : Decidable (NoEmptyNullable t) := by
  unfold NoEmptyNullable; infer_instance

/-- `encodeTrack` then `decodeTrack` (the composition the round-trip
claims are about); `none` when either side fails. -/
def roundTrip (t : TrackInfo) (trackDetails : List (Option JStr)) :
    Option TrackRecord :=
  match encodeTrack t trackDetails with
  | .error _ => none
  | .ok b => (decodeTrack b).toOption

/-- The `info` part of the round trip. -/
def roundTripInfo (t : TrackInfo) (trackDetails : List (Option JStr)) :
    Option TrackInfo :=
  (roundTrip t trackDetails).map (fun r => r.info)

/-- Replace a present-but-empty nullable string by an absent one. -/
def nullNorm (v : Option JStr) : Option JStr :=
  if v = some [] then none else v

/-- The image of a track under the encoder's empty-string normalisation of
the three nullable fields. -/
def normalizeTrack (t : TrackInfo) : TrackInfo :=
  { t with uri := nullNorm t.uri, artworkUrl := nullNorm t.artworkUrl,
           isrc := nullNorm t.isrc }

/-- The bytes `writeNullableText` emits on success. -/
def nullChunk : Option JStr → List Nat
  | none => [0]
  | some [] => [0]
  | some s => 1 :: utfChunk s

/-- The bytes `writeLong` emits on success. -/
def longChunk (v : Int) : List Nat := beBytes 8 (toNat64 v)

/-- The body bytes of `encodeTrack` up to and including `sourceName`. -/
def fieldsChunk (t : TrackInfo) : List Nat :=
  [3] ++ utfChunk t.title ++ utfChunk t.author ++ longChunk t.length ++
  utfChunk t.identifier ++ [if t.isStream then 1 else 0] ++ nullChunk t.uri ++
  nullChunk t.artworkUrl ++ nullChunk t.isrc ++ utfChunk t.sourceName

/-- The bytes of the synthetic sentinel detail entry, when one is
appended. -/
def sentinelChunk (t : TrackInfo) : List Nat :=
  if t.isSeekable != !t.isStream then
    1 :: utfChunk (if t.isSeekable then seekable1 else seekable0)
  else []

/-- The full body `encodeTrack` assembles for a plain `TrackInfo` (no
caller-supplied details). -/
def encBody (t : TrackInfo) : List Nat :=
  fieldsChunk t ++ sentinelChunk t ++ longChunk t.position

/-- The head fields `decodeTrack` recovers from `encodeTrack`'s output. -/
def expectedHead (t : TrackInfo) (ms : Nat) : HeadFields :=
  { messageSize := ms, version := 3, title := t.title, author := t.author,
    length := t.length, identifier := t.identifier, isStream := t.isStream,
    uri := t.uri, artworkUrl := t.artworkUrl, isrc := t.isrc,
    sourceName := t.sourceName }

/-! ## Session lifecycle (`src/index.ts`)

Handlers become pure functions of the session store.  `Date.now()` values
are passed in as explicit `now` arguments and `crypto.randomUUID()` results
as explicit fresh identifiers.  JS numbers that can become `NaN`
(`resumeTimeoutMs` after `configureResuming`, `resumeDeadline` after a
close) are modelled by `JSNum`. -/

/-- A JS number as used by the resume logic: an integer or `NaN`
(fractional values never reach a branch these claims depend on). -/
inductive JSNum where
  | nan : JSNum
  | num : Int → JSNum
deriving DecidableEq, Repr

/-- JS `+` : `NaN` absorbs. -/
def jsAdd : JSNum → JSNum → JSNum
  | .num a, .num b => .num (a + b)
  | _, _ => .nan

/-- JS `*` : `NaN` absorbs. -/
def jsMul : JSNum → JSNum → JSNum
  | .num a, .num b => .num (a * b)
  | _, _ => .nan

/-- JS `Math.max(1, x)`: `NaN` when `x` is `NaN`. -/
def jsMax1 : JSNum → JSNum
  | .nan => .nan
  | .num v => .num (max 1 v)

/-- JS falsiness of a number: `0` and `NaN` are falsy. -/
def jsFalsy : JSNum → Bool
  | .nan => true
  | .num v => v = 0

/-- JS `x > now`: every comparison against `NaN` is `false`. -/
def jsGt : JSNum → Int → Bool
  | .nan, _ => false
  | .num v, now => now < v

/-- A `Session` record (`src/types.ts`); `ws` holds the attached live
socket's handle, `none` when detached. -/
structure Session where
  sessionId : String
  userId : String
  clientName : String
  resumeEnabled : Bool
  resumeTimeoutMs : JSNum
  resumeDeadline : Option JSNum
  ws : Option Nat
deriving DecidableEq, Repr

/-- The `sessions : Map<string, Session>` store, in insertion order.  Keys
are unique because every insertion uses a fresh `crypto.randomUUID()`. -/
abbrev SessionStore := List Session

/-- `this.sessions.get(sid)`. -/
def lookupSession (store : SessionStore) (sid : String) : Option Session :=
  store.find? (fun s => s.sessionId == sid)

/-- The resume eligibility test of `handleWebSocketUpgrade`:
`existing.resumeEnabled && (!existing.resumeDeadline || existing.resumeDeadline > Date.now())`. -/
def resumeGuard (s : Session) (now : Int) : Bool :=
  s.resumeEnabled &&
    (match s.resumeDeadline with
     | none => true
     | some d => jsFalsy d || jsGt d now)

/-- The session created on a non-resumed upgrade. -/
def freshSession (freshId userId clientName : String) : Session :=
  { sessionId := freshId, userId, clientName, resumeEnabled := false,
    resumeTimeoutMs := .num 60000, resumeDeadline := none, ws := none }

/-- What `handleWebSocketUpgrade` decides: the `resumed` flag and
`sessionId` placed in the socket data (and echoed by the `ready` frame on
open), and the updated store. -/
structure UpgradeOutcome where
  resumed : Bool
  sessionId : String
  store : SessionStore
deriving Repr

/-- The session-selection core of `handleWebSocketUpgrade` (after the
header and auth checks): resume iff a `Session-Id` header was sent, a
session with that id exists, its `userId` equals the request's `User-Id`,
and the resume guard passes; otherwise create a fresh session under a
fresh id. -/
def handleUpgrade (store : SessionStore) (sessionIdHeader : Option String)
    (userId clientName : String) (now : Int) (freshId : String) :
    UpgradeOutcome :=
  let chosen : Option Session :=
    match sessionIdHeader with
    | none => none
    | some sid =>
      match lookupSession store sid with
      | none => none
      | some existing =>
        if existing.userId == userId && resumeGuard existing now then
          some existing
        else none
  match chosen with
  | some s => { resumed := true, sessionId := s.sessionId, store := store }
  | none =>
    { resumed := false, sessionId := freshId,
      store := store ++ [freshSession freshId userId clientName] }

/-- Update the session stored under `sid` (keys are unique, so at most one
entry is affected; `f` never changes the `sessionId`). -/
def updateSession (store : SessionStore) (sid : String) (f : Session → Session) :
    SessionStore :=
  store.map (fun s => if s.sessionId == sid then f s else s)

/-- `handleWebSocketOpen` on the store: attach the socket, clear the
deadline. -/
def handleOpen (store : SessionStore) (sid : String) (wsHandle : Nat) :
    SessionStore :=
  updateSession store sid
    (fun s => { s with ws := some wsHandle, resumeDeadline := none })

/-- `configureResuming`: `timeout` is the already-converted
`Number(payload?.timeout ?? 60)`;
`resumeTimeoutMs = Math.max(1, timeoutSeconds) * 1000`. -/
def configureResuming (store : SessionStore) (sid : String) (timeout : JSNum) :
    SessionStore :=
  updateSession store sid
    (fun s => { s with resumeEnabled := true,
                       resumeTimeoutMs := jsMul (jsMax1 timeout) (.num 1000) })

/-- `handleWebSocketClose` on the store: detach the socket; keep the
session with `resumeDeadline = now + resumeTimeoutMs` when
`resumeEnabled`, else delete it. -/
def handleClose (store : SessionStore) (sid : String) (now : Int) :
    SessionStore :=
  match lookupSession store sid with
  | none => store
  | some s =>
    if s.resumeEnabled then
      updateSession store sid
        (fun x => { x with ws := none,
                           resumeDeadline := some (jsAdd (.num now) x.resumeTimeoutMs) })
    else store.filter (fun x => !(x.sessionId == sid))

/-! ## Source-manager registry (`src/managers/sourceManager.ts`) and the
`/v4/loadtracks` route decision (`src/endpoints/loadtracks.route.ts`) -/

/-- A `SourceManager.resolve` result: a single track or an array. -/
inductive ResolveReturn where
  | single : String → ResolveReturn
  | multiple : List String → ResolveReturn
deriving DecidableEq, Repr

/-- A registered source manager (tracks abstracted to opaque tokens; the
claims only concern dispatch, not a provider's scraping logic). -/
structure SourceManager where
  name : String
  canHandle : String → Bool
  resolveFn : String → ResolveReturn

/-- `register`: `Map.set` by name — overwrite in place for an existing
name, append for a new one. -/
def registerManager (regs : List SourceManager) (m : SourceManager) :
    List SourceManager :=
  if regs.any (fun x => x.name == m.name) then
    regs.map (fun x => if x.name == m.name then m else x)
  else regs ++ [m]

/-- `findManager`: first-match scan of `canHandle` over `Map.values()`
(insertion order). -/
def findManager (regs : List SourceManager) (url : String) :
    Option SourceManager :=
  regs.find? (fun m => m.canHandle url)

/-- The outcome of `SourceManagerRegistry.resolve`: the thrown
`No source manager found for URL: …` error, or the chosen manager's own
resolution of the unchanged identifier. -/
inductive ResolveOutcome where
  | noSource : String → ResolveOutcome
  | resolved : ResolveReturn → ResolveOutcome
deriving DecidableEq, Repr

/-- `SourceManagerRegistry.resolve`. -/
def registryResolve (regs : List SourceManager) (url : String) :
    ResolveOutcome :=
  match findManager regs url with
  | none => .noSource url
  | some m => .resolved (m.resolveFn url)

/-- The observable part of a `/v4/loadtracks` response. -/
structure RouteResponse where
  status : Nat
  loadType : Option String
  severity : Option String
  cause : Option String
deriving DecidableEq, Repr

/-- The `/v4/loadtracks` handler decision (`identifier = none` models a
missing or blank query parameter, rejected by `getRequired`). -/
def loadTracksRoute (regs : List SourceManager) (identifier : Option String) :
    RouteResponse :=
  match identifier with
  | none => { status := 400, loadType := none, severity := none, cause := none }
  | some id =>
    match findManager regs id with
    | none =>
      { status := 200, loadType := some "error", severity := some "common",
        cause := some "Unknown" }
    | some m =>
      match m.resolveFn id with
      | .single _ =>
        { status := 200, loadType := some "track", severity := none, cause := none }
      | .multiple [] =>
        { status := 200, loadType := some "empty", severity := none, cause := none }
      | .multiple _ =>
        { status := 200, loadType := some "search", severity := none, cause := none }

/-! ## Concrete inputs used by counterexamples and witnesses -/

/-- The C1 counterexample track: valid, but with a present-and-empty
`uri`. -/
def c1cexTrack : TrackInfo :=
  { title := [], author := [], length := 0, identifier := [],
    isSeekable := true, isStream := false, uri := some [],
    artworkUrl := none, isrc := none, sourceName := [], position := 0 }

/-- The bytes `encodeTrack` produces for `c1cexTrack`: header
`(1 << 30) | 29`, version 3, five empty strings, `isStream = 0`, three
absent nullable fields, no details, `startPositionMs = 0`. -/
def c1cexBytes : List Nat :=
  [64, 0, 0, 29, 3, 0, 0, 0, 0, 0, 0, 0, 0, 0, 0, 0, 0, 0, 0, 0, 0, 0, 0,
   0, 0, 0, 0, 0, 0, 0, 0, 0, 0]

/-- The C6 counterexample buffer: header declares `messageSize = 10`
(declared extent 14), but the actual buffer holds 21 bytes; the
non-versioned (version 1) field sequence reads up to byte 21 and the final
position read happens at the fixed offset `14 - 8 = 6`. -/
def c6cex : List Nat :=
  [0, 0, 0, 10, 0, 0, 0, 0, 0, 0, 0, 0, 0, 0, 0, 42, 0, 0, 0, 0, 0]

/-- What `decodeTrack` returns on `c6cex`. -/
def c6cexRecord : TrackRecord :=
  { info := { title := [], author := [], length := 42, identifier := [],
              isSeekable := true, isStream := false, uri := none,
              artworkUrl := none, isrc := none, sourceName := [],
              position := 0 },
    details := [] }

/-- A buffer whose details region `[1, 0, 5, 65]` is truncated mid-entry:
the entry declares a 5-byte payload but only one byte remains before the
fixed 8-byte tail holding `startPositionMs = 7`. -/
def wbC5 : List Nat :=
  [64, 0, 0, 33, 3, 0, 0, 0, 0, 0, 0, 0, 0, 0, 0, 0, 0, 0, 0, 0, 0, 0, 0,
   0, 0, 1, 0, 5, 65, 0, 0, 0, 0, 0, 0, 0, 7]

/-- The head fields `decodeHead` recovers from `wbC5`. -/
def wbC5Head : HeadFields :=
  { messageSize := 33, version := 3, title := [], author := [], length := 0,
    identifier := [], isStream := false, uri := none, artworkUrl := none,
    isrc := none, sourceName := [] }

/-- The store of the C2 scenario: fresh connect creating session `"s1"`
for user `"u"`, socket `1` attached on open, then a `configureResuming`
frame with a 60-second timeout — the session is now ACTIVE and
resume-enabled with no deadline. -/
def c2Store : SessionStore :=
  configureResuming
    (handleOpen (handleUpgrade [] none "u" "c" 0 "s1").store "s1" 1)
    "s1" (.num 60)

/-- A suspended session whose resume deadline (100) will be elapsed at
`now = 200`. -/
def expiredSession : Session :=
  { sessionId := "s1", userId := "u", clientName := "c",
    resumeEnabled := true, resumeTimeoutMs := .num 5000,
    resumeDeadline := some (.num 100), ws := none }

/-- A suspended, resume-enabled, deadline-free session owned by
`"alice"`. -/
def aliceSession : Session :=
  { sessionId := "s1", userId := "alice", clientName := "c",
    resumeEnabled := true, resumeTimeoutMs := .num 5000,
    resumeDeadline := none, ws := none }

/-- A registered manager that only handles the identifier `"ya"`. -/
def mgrA : SourceManager :=
  { name := "a", canHandle := fun u => u == "ya",
    resolveFn := fun u => .single u }

/-- A registered manager that only handles the identifier `"x"`. -/
def mgrB : SourceManager :=
  { name := "b", canHandle := fun u => u == "x",
    resolveFn := fun u => .multiple [u, u] }

/-! # Helper lemmas -/

/-! ## Byte-level arithmetic -/

theorem beBytes_length (k n : Nat) : (beBytes k n).length = k := by
  induction k generalizing n with
  | zero => rfl
  | succ k ih => simp [beBytes, ih]

theorem beVal_aux (k n a : Nat) :
    List.foldl (fun a b => a * 256 + b) a (beBytes k n) =
      a * 2 ^ (8 * k) + n % 2 ^ (8 * k) := by
  induction k generalizing a with
  | zero => simp [beBytes, Nat.mod_one]
  | succ k ih =>
    rw [beBytes]
    show List.foldl (fun a b => a * 256 + b) (a * 256 + n / 2 ^ (8 * k) % 256)
      (beBytes k n) = _
    rw [ih]
    have h1 : (2 : Nat) ^ (8 * (k + 1)) = 2 ^ (8 * k) * 256 := by
      rw [Nat.mul_succ, pow_add]; norm_num
    have hsplit : n % 2 ^ (8 * (k + 1)) =
        n % 2 ^ (8 * k) + 2 ^ (8 * k) * (n / 2 ^ (8 * k) % 256) := by
      rw [h1, Nat.mod_mul]
    rw [hsplit, h1]
    ring

theorem beVal_beBytes (k n : Nat) : beVal (beBytes k n) = n % 2 ^ (8 * k) := by
  have := beVal_aux k n 0
  simpa [beVal] using this

theorem toSigned64_toNat64 (v : Int) (h1 : -(2 ^ 63) ≤ v) (h2 : v < 2 ^ 63) :
    toSigned64 (toNat64 v % 2 ^ 64) = v := by
  unfold toSigned64 toNat64
  have hm : v % 2 ^ 64 = if 0 ≤ v then v else v + 2 ^ 64 := by
    split <;> omega
  split_ifs at hm with h0
  · rw [hm]
    have hv : (v.toNat : Int) = v := Int.toNat_of_nonneg h0
    have hlt : v.toNat % 2 ^ 64 = v.toNat := by omega
    rw [hlt]
    split_ifs with hc
    · exact hv
    · omega
  · rw [hm]
    have hge : (0:Int) ≤ v + 2 ^ 64 := by omega
    have hv : ((v + 2 ^ 64).toNat : Int) = v + 2 ^ 64 := Int.toNat_of_nonneg hge
    have hlt : (v + 2 ^ 64).toNat % 2 ^ 64 = (v + 2 ^ 64).toNat := by omega
    rw [hlt]
    split_ifs with hc
    · omega
    · omega

theorem lor_testBit30 (s : Nat) : ((2 ^ 30 ||| s) % 2 ^ 32).testBit 30 = true := by
  rw [Nat.testBit_mod_two_pow, Nat.testBit_lor, Nat.testBit_two_pow_self]
  simp

theorem lor_messageSize (s : Nat) (hs : s < 2 ^ 30) :
    (2 ^ 30 ||| s) % 2 ^ 32 % 2 ^ 30 = s := by
  have hdvd : (2:Nat) ^ 30 ∣ 2 ^ 32 := pow_dvd_pow 2 (by omega)
  rw [Nat.mod_mod_of_dvd _ hdvd]
  apply Nat.eq_of_testBit_eq
  intro i
  rcases Nat.lt_or_ge i 30 with hi | hi
  · rw [Nat.testBit_mod_two_pow, Nat.testBit_lor,
      Nat.testBit_two_pow_of_ne (by omega : 30 ≠ i)]
    simp [hi]
  · have h1 : s.testBit i = false :=
      Nat.testBit_lt_two_pow
        (lt_of_lt_of_le hs (Nat.pow_le_pow_right (by norm_num) hi))
    rw [Nat.testBit_mod_two_pow, h1]
    have h2 : ¬ (i < 30) := by omega
    simp [h2]

/-! ## Reading an encoded chunk back -/

theorem except_bind_ok {ε α β : Type} (a : α) (f : α → Except ε β) :
    (Except.ok a >>= f) = f a := rfl

theorem rByte_cons (b : Nat) (rest : List Nat) :
    rByte (b :: rest) = .ok (b, rest) := rfl

theorem rInt_chunk (n : Nat) (rest : List Nat) :
    rInt (beBytes 4 n ++ rest) = .ok (n % 2 ^ 32, rest) := by
  have hlen : (beBytes 4 n).length = 4 := beBytes_length 4 n
  unfold rInt
  rw [if_pos (by simp [hlen]), List.take_left' hlen, List.drop_left' hlen,
    beVal_beBytes]

theorem rLong_chunk (n : Nat) (rest : List Nat) :
    rLong (beBytes 8 n ++ rest) = .ok (toSigned64 (n % 2 ^ 64), rest) := by
  have hlen : (beBytes 8 n).length = 8 := beBytes_length 8 n
  unfold rLong
  rw [if_pos (by simp [hlen]), List.take_left' hlen, List.drop_left' hlen,
    beVal_beBytes]

theorem rLong_longChunk (v : Int) (rest : List Nat)
    (h1 : -(2 ^ 63) ≤ v) (h2 : v < 2 ^ 63) :
    rLong (longChunk v ++ rest) = .ok (v, rest) := by
  rw [longChunk, rLong_chunk, toSigned64_toNat64 v h1 h2]

theorem rUTF_chunk (s : JStr) (rest : List Nat) (h : s.length ≤ 65535) :
    rUTF (utfChunk s ++ rest) = .ok (s, rest) := by
  have hlen : (beBytes 2 s.length).length = 2 := beBytes_length 2 s.length
  have hassoc : utfChunk s ++ rest = beBytes 2 s.length ++ (s ++ rest) := by
    simp [utfChunk]
  rw [hassoc]
  unfold rUTF
  rw [List.take_left' hlen, List.drop_left' hlen, beVal_beBytes]
  rw [show s.length % 2 ^ (8 * 2) = s.length from Nat.mod_eq_of_lt (by omega)]
  rw [if_pos (by simp [hlen]), if_pos (by simp)]
  rw [List.take_left, List.drop_left]

theorem rNullableText_chunk (v : Option JStr) (rest : List Nat)
    (hv : v ≠ some []) (hlen : ∀ s, v = some s → s.length ≤ 65535) :
    rNullableText (nullChunk v ++ rest) = .ok (v, rest) := by
  match v with
  | none => rfl
  | some [] => exact absurd rfl hv
  | some (c :: cs) =>
    have hl : (c :: cs).length ≤ 65535 := hlen _ rfl
    have h0 : nullChunk (some (c :: cs)) ++ rest =
        1 :: (utfChunk (c :: cs) ++ rest) := by
      simp [nullChunk]
    rw [h0]
    have h1 : rNullableText (1 :: (utfChunk (c :: cs) ++ rest)) =
        match rUTF (utfChunk (c :: cs) ++ rest) with
        | .error e => .error e
        | .ok (s, rest2) => .ok (some s, rest2) := rfl
    rw [h1, rUTF_chunk _ _ hl]

theorem streamBit (b : Bool) : decide ((if b then (1:Nat) else 0) ≠ 0) = b := by
  cases b <;> simp

theorem readVersion_true_cons (b : Nat) (rest : List Nat) :
    readVersion true (b :: rest) = .ok (b, rest) := rfl

theorem readOptField_3_2 (l : List Nat) :
    readOptField (decide ((3 : Nat) ≥ 2)) l = rNullableText l := rfl

theorem readOptField_3_3 (l : List Nat) :
    readOptField (decide ((3 : Nat) ≥ 3)) l = rNullableText l := rfl

/-- Decoding the head of an encoded track recovers every field exactly
(under validity and the no-empty-nullable condition). -/
theorem decodeHead_chunk (t : TrackInfo) (u : Nat) (tail : List Nat)
    (hbit : (u % 2 ^ 32).testBit 30 = true)
    (hv : ValidTrackInfo t) (hne : NoEmptyNullable t) :
    decodeHead (beBytes 4 u ++ fieldsChunk t ++ tail) =
      .ok (expectedHead t (u % 2 ^ 32 % 2 ^ 30), tail) := by
  obtain ⟨ht, ha, hid, hsn, hu, haw, hic, hl1, hl2, hp1, hp2⟩ := hv
  obtain ⟨hu0, haw0, hic0⟩ := hne
  unfold decodeHead
  simp only [fieldsChunk, List.append_assoc, List.cons_append, List.nil_append]
  rw [rInt_chunk]
  simp only [except_bind_ok, hbit, readVersion_true_cons]
  rw [rUTF_chunk _ _ ht]
  simp only [except_bind_ok]
  rw [rUTF_chunk _ _ ha]
  simp only [except_bind_ok]
  rw [rLong_longChunk _ _ hl1 hl2]
  simp only [except_bind_ok]
  rw [rUTF_chunk _ _ hid]
  simp only [except_bind_ok]
  rw [rByte_cons]
  simp only [except_bind_ok, readOptField_3_2, readOptField_3_3]
  rw [rNullableText_chunk _ _ hu0 hu]
  simp only [except_bind_ok]
  rw [rNullableText_chunk _ _ haw0 haw]
  simp only [except_bind_ok]
  rw [rNullableText_chunk _ _ hic0 hic]
  simp only [except_bind_ok]
  rw [rUTF_chunk _ _ hsn]
  simp only [except_bind_ok, streamBit]
  rfl

/-! ## Encoder success and the master round trip -/

/-! encoder success lemmas -/

theorem writeUTF_ok (s : JStr) (h : s.length ≤ 65535) :
    writeUTF s = .ok (utfChunk s) := by
  unfold writeUTF
  rw [if_neg (by omega)]

theorem writeNullableText_ok (v : Option JStr)
    (hlen : ∀ s, v = some s → s.length ≤ 65535) :
    writeNullableText v = .ok (nullChunk v) := by
  match v with
  | none => rfl
  | some [] => rfl
  | some (c :: cs) =>
    have hl : (c :: cs).length ≤ 65535 := hlen _ rfl
    show (do
      let c ← writeUTF (c :: cs)
      pure (1 :: c) : Except EncErr (List Nat)) = _
    rw [writeUTF_ok _ hl]
    rfl

theorem writeLong_ok (v : Int) (h1 : -(2 ^ 63) ≤ v) (h2 : v < 2 ^ 63) :
    writeLong v = .ok (longChunk v) := by
  unfold writeLong
  rw [if_neg (by push_neg; omega)]
  rfl

theorem writeDetails_sentinel (t : TrackInfo) :
    writeDetails
      (if t.isSeekable != !t.isStream then
        [some (if t.isSeekable then seekable1 else seekable0)] else []) =
      .ok (sentinelChunk t) := by
  unfold sentinelChunk
  cases hs : t.isSeekable <;> cases hst : t.isStream <;> rfl

theorem encodeTrack_eq (t : TrackInfo) (hv : ValidTrackInfo t) :
    encodeTrack t [] =
      .ok (beBytes 4 (2 ^ 30 ||| (encBody t).length) ++ encBody t) := by
  obtain ⟨ht, ha, hid, hsn, hu, haw, hic, hl1, hl2, hp1, hp2⟩ := hv
  unfold encodeTrack
  rw [writeUTF_ok _ ht]
  simp only [except_bind_ok]
  rw [writeUTF_ok _ ha]
  simp only [except_bind_ok]
  rw [writeLong_ok _ hl1 hl2]
  simp only [except_bind_ok]
  rw [writeUTF_ok _ hid]
  simp only [except_bind_ok]
  rw [writeNullableText_ok _ hu]
  simp only [except_bind_ok]
  rw [writeNullableText_ok _ haw]
  simp only [except_bind_ok]
  rw [writeNullableText_ok _ hic]
  simp only [except_bind_ok]
  rw [writeUTF_ok _ hsn]
  simp only [except_bind_ok, List.nil_append]
  rw [writeDetails_sentinel]
  simp only [except_bind_ok]
  rw [writeLong_ok _ hp1 hp2]
  simp only [except_bind_ok]
  simp only [encBody, fieldsChunk, List.append_assoc, List.cons_append,
    List.nil_append, List.length_append, List.length_cons]
  rfl

/-! length bookkeeping -/

theorem utfChunk_length (s : JStr) : (utfChunk s).length = 2 + s.length := by
  simp [utfChunk, beBytes_length]

theorem nullChunk_length_le (v : Option JStr)
    (hlen : ∀ s, v = some s → s.length ≤ 65535) :
    (nullChunk v).length ≤ 65538 := by
  match v with
  | none => simp [nullChunk]
  | some [] => simp [nullChunk]
  | some (c :: cs) =>
    have hl : (c :: cs).length ≤ 65535 := hlen _ rfl
    simp only [List.length_cons] at hl
    simp [nullChunk, utfChunk_length]
    omega

theorem longChunk_length (v : Int) : (longChunk v).length = 8 := by
  simp [longChunk, beBytes_length]

theorem sentinelChunk_length_le (t : TrackInfo) :
    (sentinelChunk t).length ≤ 15 := by
  unfold sentinelChunk
  cases hs : t.isSeekable <;> cases hst : t.isStream <;> simp [utfChunk_length, seekable0, seekable1]

theorem encBody_length_lt (t : TrackInfo) (hv : ValidTrackInfo t) :
    (encBody t).length < 2 ^ 30 := by
  obtain ⟨ht, ha, hid, hsn, hu, haw, hic, hl1, hl2, hp1, hp2⟩ := hv
  have h1 := nullChunk_length_le t.uri hu
  have h2 := nullChunk_length_le t.artworkUrl haw
  have h3 := nullChunk_length_le t.isrc hic
  have h4 := sentinelChunk_length_le t
  simp [encBody, fieldsChunk, utfChunk_length, longChunk_length]
  omega

/-! ## Assembled round trip -/

theorem slice_middle (pre mid post : List Nat) :
    ((pre ++ (mid ++ post)).take (pre.length + mid.length)).drop pre.length = mid := by
  rw [← List.append_assoc]
  rw [List.take_left' (by simp)]
  rw [List.drop_left]

theorem readLongAt_end (pre : List Nat) (v : Int)
    (h1 : -(2 ^ 63) ≤ v) (h2 : v < 2 ^ 63) :
    readLongAt (pre ++ longChunk v) (pre.length : Int) = .ok v := by
  unfold readLongAt
  have hlen : (pre ++ longChunk v).length = pre.length + 8 := by
    simp [longChunk_length]
  rw [hlen]
  rw [if_neg (by push_cast; omega), if_neg (by omega)]
  have htn : ((pre.length : Int)).toNat = pre.length := by omega
  rw [htn, List.drop_left]
  rw [show (longChunk v).take 8 = longChunk v from by
    rw [← longChunk_length v]; exact List.take_length _]
  rw [longChunk, beVal_beBytes]
  rw [show (2:Nat) ^ (8 * 8) = 2 ^ 64 from rfl]
  rw [toSigned64_toNat64 v h1 h2]

theorem processDetails_nil : processDetails (parseDetails []) = ([], none) := rfl

theorem processDetails_sk1 :
    processDetails (parseDetails (1 :: utfChunk seekable1)) = ([], some true) := by
  decide

theorem processDetails_sk0 :
    processDetails (parseDetails (1 :: utfChunk seekable0)) = ([], some false) := by
  decide

theorem roundTrip_eq (t : TrackInfo) (hv : ValidTrackInfo t)
    (hne : NoEmptyNullable t) :
    roundTrip t [] = some { info := t, details := [] } := by
  have hmslt := encBody_length_lt t hv
  have hvp := hv
  obtain ⟨ht, ha, hid, hsn, hu, haw, hic, hl1, hl2, hp1, hp2⟩ := hvp
  unfold roundTrip
  rw [encodeTrack_eq t hv]
  show (decodeTrack (beBytes 4 (2 ^ 30 ||| (encBody t).length) ++ encBody t)).toOption
      = some { info := t, details := [] }
  have hBlen : (beBytes 4 (2 ^ 30 ||| (encBody t).length) ++ encBody t).length
      = 4 + (encBody t).length := by
    simp [beBytes_length]
  have hBne : beBytes 4 (2 ^ 30 ||| (encBody t).length) ++ encBody t ≠ [] := by
    intro h
    have hlen0 := congrArg List.length h
    rw [hBlen] at hlen0
    simp only [List.length_nil] at hlen0
    omega
  have hBempty : (beBytes 4 (2 ^ 30 ||| (encBody t).length) ++ encBody t).isEmpty
      = false := by
    rw [List.isEmpty_eq_false]
    exact hBne
  unfold decodeTrack
  rw [if_neg (by rw [hBempty]; simp)]
  have hdh := decodeHead_chunk t (2 ^ 30 ||| (encBody t).length)
    (sentinelChunk t ++ longChunk t.position)
    (lor_testBit30 (encBody t).length) hv hne
  rw [lor_messageSize _ hmslt] at hdh
  rw [show beBytes 4 (2 ^ 30 ||| (encBody t).length) ++ fieldsChunk t ++
      (sentinelChunk t ++ longChunk t.position) =
      beBytes 4 (2 ^ 30 ||| (encBody t).length) ++ encBody t from by
    simp [encBody, List.append_assoc]] at hdh
  rw [hdh]
  show (finishDecode (beBytes 4 (2 ^ 30 ||| (encBody t).length) ++ encBody t)
      (expectedHead t (encBody t).length)
      ((beBytes 4 (2 ^ 30 ||| (encBody t).length) ++ encBody t).length -
        (sentinelChunk t ++ longChunk t.position).length)).toOption
    = some { info := t, details := [] }
  unfold finishDecode
  simp only [expectedHead]
  have hFlen : (encBody t).length =
      (fieldsChunk t).length + (sentinelChunk t).length + 8 := by
    simp [encBody, longChunk_length]
    omega
  have hrest : (sentinelChunk t ++ longChunk t.position).length =
      (sentinelChunk t).length + 8 := by
    simp [longChunk_length]
  rw [hBlen, hrest]
  have hpos : 4 + (encBody t).length - ((sentinelChunk t).length + 8) =
      4 + (fieldsChunk t).length := by omega
  rw [hpos]
  cases hsk : (t.isSeekable != !t.isStream) with
  | false =>
    have hseq : t.isSeekable = !t.isStream := by
      revert hsk
      cases t.isSeekable <;> cases t.isStream <;> decide
    have hsc : sentinelChunk t = [] := by
      unfold sentinelChunk
      rw [hsk]
      rfl
    have hS0 : (sentinelChunk t).length = 0 := by rw [hsc]; rfl
    have hregion : detailsRegion
        (beBytes 4 (2 ^ 30 ||| (encBody t).length) ++ encBody t)
        (4 + (fieldsChunk t).length) ((4 + ((encBody t).length : Int)) - 8) = [] := by
      unfold detailsRegion
      rw [if_neg (by push_cast; omega)]
    rw [hregion, processDetails_nil]
    have hoff : ((4 : Int) + ((encBody t).length : Int)) - 8 =
        (((beBytes 4 (2 ^ 30 ||| (encBody t).length) ++ fieldsChunk t).length : Nat) : Int) := by
      have hp : (beBytes 4 (2 ^ 30 ||| (encBody t).length) ++ fieldsChunk t).length
          = 4 + (fieldsChunk t).length := by simp [beBytes_length]
      rw [hp]
      push_cast
      omega
    rw [hoff]
    rw [show beBytes 4 (2 ^ 30 ||| (encBody t).length) ++ encBody t =
        (beBytes 4 (2 ^ 30 ||| (encBody t).length) ++ fieldsChunk t) ++
          longChunk t.position from by
      simp [encBody, hsc, List.append_assoc]]
    rw [readLongAt_end _ _ hp1 hp2]
    simp only [except_bind_ok]
    show some _ = some _
    rw [show (Option.getD (none : Option Bool) (!t.isStream)) = t.isSeekable from by
      rw [hseq]
      rfl]
  | true =>
    have hsne : t.isSeekable ≠ !t.isStream := by
      revert hsk
      cases t.isSeekable <;> cases t.isStream <;> decide
    have hsc : sentinelChunk t =
        1 :: utfChunk (if t.isSeekable then seekable1 else seekable0) := by
      unfold sentinelChunk
      rw [hsk]
      rfl
    have hS15 : (sentinelChunk t).length = 15 := by
      rw [hsc]
      cases t.isSeekable <;> simp [utfChunk_length, seekable0, seekable1]
    have hpre : (beBytes 4 (2 ^ 30 ||| (encBody t).length) ++ fieldsChunk t).length
        = 4 + (fieldsChunk t).length := by simp [beBytes_length]
    have hregion : detailsRegion
        (beBytes 4 (2 ^ 30 ||| (encBody t).length) ++ encBody t)
        (4 + (fieldsChunk t).length) ((4 + ((encBody t).length : Int)) - 8) =
        sentinelChunk t := by
      unfold detailsRegion
      rw [if_pos (by push_cast; omega)]
      rw [show ((4 + ((encBody t).length : Int)) - 8).toNat =
          (beBytes 4 (2 ^ 30 ||| (encBody t).length) ++ fieldsChunk t).length +
            (sentinelChunk t).length from by
        rw [hpre]; omega]
      rw [show beBytes 4 (2 ^ 30 ||| (encBody t).length) ++ encBody t =
          (beBytes 4 (2 ^ 30 ||| (encBody t).length) ++ fieldsChunk t) ++
            (sentinelChunk t ++ longChunk t.position) from by
        simp [encBody, List.append_assoc]]
      rw [show 4 + (fieldsChunk t).length =
          (beBytes 4 (2 ^ 30 ||| (encBody t).length) ++ fieldsChunk t).length from
        hpre.symm]
      exact slice_middle _ _ _
    rw [hregion]
    have hoff : ((4 : Int) + ((encBody t).length : Int)) - 8 =
        (((beBytes 4 (2 ^ 30 ||| (encBody t).length) ++ fieldsChunk t ++
          sentinelChunk t).length : Nat) : Int) := by
      have hp : (beBytes 4 (2 ^ 30 ||| (encBody t).length) ++ fieldsChunk t ++
          sentinelChunk t).length = 4 + ((fieldsChunk t).length + 15) := by
        simp [beBytes_length, hS15]
      rw [hp]
      push_cast
      omega
    rw [hoff]
    rw [show beBytes 4 (2 ^ 30 ||| (encBody t).length) ++ encBody t =
        (beBytes 4 (2 ^ 30 ||| (encBody t).length) ++ fieldsChunk t ++
          sentinelChunk t) ++ longChunk t.position from by
      simp [encBody, List.append_assoc]]
    rw [readLongAt_end _ _ hp1 hp2]
    cases hseek : t.isSeekable with
    | true =>
      rw [hsc, hseek]
      rw [if_pos rfl]
      rw [processDetails_sk1]
      simp only [except_bind_ok]
      show some _ = some _
      rw [show (Option.getD (some true) (!t.isStream)) = t.isSeekable from by
        rw [hseek]; rfl]
    | false =>
      rw [hsc, hseek]
      rw [if_neg (by simp)]
      rw [processDetails_sk0]
      simp only [except_bind_ok]
      show some _ = some _
      rw [show (Option.getD (some false) (!t.isStream)) = t.isSeekable from by
        rw [hseek]; rfl]

/-! ## Details-region parsing -/


theorem parseDetailsGo_step0 (f : Nat) (rest : List Nat) :
    parseDetailsGo (f + 1) (0 :: rest) = none :: parseDetailsGo f rest := rfl

theorem parseDetailsGo_step1 (f hi lo : Nat) (rest2 : List Nat) :
    parseDetailsGo (f + 1) (1 :: hi :: lo :: rest2) =
      if hi * 256 + lo ≤ rest2.length then
        some (rest2.take (hi * 256 + lo)) ::
          parseDetailsGo f (rest2.drop (hi * 256 + lo))
      else [] := rfl

theorem parseDetailsGo_congr :
    ∀ f1 f2 l, l.length ≤ f1 → l.length ≤ f2 →
      parseDetailsGo f1 l = parseDetailsGo f2 l := by
  intro f1
  induction f1 with
  | zero =>
    intro f2 l h1 h2
    have : l = [] := by
      cases l with
      | nil => rfl
      | cons a as => simp at h1
    subst this
    cases f2 <;> rfl
  | succ f1 ih =>
    intro f2 l h1 h2
    cases l with
    | nil => cases f2 <;> rfl
    | cons b rest =>
      cases f2 with
      | zero => simp at h2
      | succ f2 =>
        show parseDetailsGo (f1 + 1) (b :: rest) = parseDetailsGo (f2 + 1) (b :: rest)
        simp only [parseDetailsGo]
        by_cases hb : b = 0
        · rw [if_pos hb, if_pos hb]
          rw [ih f2 rest (by simp at h1; omega) (by simp at h2; omega)]
        · rw [if_neg hb, if_neg hb]
          cases rest with
          | nil => rfl
          | cons hi rest1 =>
            cases rest1 with
            | nil => rfl
            | cons lo rest2 =>
              show (if hi * 256 + lo ≤ rest2.length then
                  some (rest2.take (hi * 256 + lo)) ::
                    parseDetailsGo f1 (rest2.drop (hi * 256 + lo))
                else []) =
                (if hi * 256 + lo ≤ rest2.length then
                  some (rest2.take (hi * 256 + lo)) ::
                    parseDetailsGo f2 (rest2.drop (hi * 256 + lo))
                else [])
              by_cases hl : hi * 256 + lo ≤ rest2.length
              · rw [if_pos hl, if_pos hl]
                rw [ih f2 (rest2.drop (hi * 256 + lo))
                  (by simp at h1 ⊢; omega) (by simp at h2 ⊢; omega)]
              · rw [if_neg hl, if_neg hl]

theorem parseDetails_cons_none (rest : List Nat) :
    parseDetails (0 :: rest) = none :: parseDetails rest := rfl

theorem parseDetails_chunk_some (c : Nat) (cs : List Nat) (rest : List Nat)
    (hlen : (c :: cs).length ≤ 65535) :
    parseDetails (nullChunk (some (c :: cs)) ++ rest) =
      some (c :: cs) :: parseDetails rest := by
  have hshape : nullChunk (some (c :: cs)) ++ rest =
      1 :: ((c :: cs).length / 256 % 256) :: ((c :: cs).length % 256) ::
        ((c :: cs) ++ rest) := by
    simp [nullChunk, utfChunk, beBytes]
  rw [hshape]
  unfold parseDetails
  rw [show (1 :: ((c :: cs).length / 256 % 256) :: ((c :: cs).length % 256) ::
      ((c :: cs) ++ rest)).length = ((c :: cs).length + rest.length + 2) + 1 from by
    simp
    omega]
  rw [parseDetailsGo_step1]
  rw [show (c :: cs).length / 256 % 256 * 256 + (c :: cs).length % 256 =
      (c :: cs).length from by
    simp only [List.length_cons] at hlen ⊢
    omega]
  rw [if_pos (by simp)]
  rw [List.take_left, List.drop_left]
  have hgo : parseDetailsGo ((c :: cs).length + rest.length + 2) rest =
      parseDetailsGo rest.length rest :=
    parseDetailsGo_congr _ _ rest (by simp; omega) (le_refl _)
  rw [hgo]

theorem parseDetails_truncated (hi lo : Nat) (rest2 : List Nat)
    (h : rest2.length < hi * 256 + lo) :
    parseDetails (1 :: hi :: lo :: rest2) = [] := by
  unfold parseDetails
  rw [show (1 :: hi :: lo :: rest2).length = (rest2.length + 2) + 1 from by
    simp]
  rw [parseDetailsGo_step1]
  rw [if_neg (by omega)]

theorem parseDetails_writeDetails (ds : List (Option JStr)) :
    ∀ c rest, writeDetails ds = .ok c → (∀ v ∈ ds, v ≠ some []) →
      parseDetails (c ++ rest) = ds ++ parseDetails rest := by
  induction ds with
  | nil =>
    intro c rest h hne
    have : c = [] := by
      simpa [writeDetails] using h.symm
    subst this
    simp
  | cons v ds ih =>
    intro c rest h hne
    match v with
    | none =>
      simp only [writeDetails, writeNullableText, except_bind_ok] at h
      cases hw : writeDetails ds with
      | error e => rw [hw] at h; cases h
      | ok cr =>
        rw [hw] at h
        simp only [except_bind_ok] at h
        have hc : c = [0] ++ cr := by
          cases h
          rfl
        subst hc
        rw [show ([0] ++ cr) ++ rest = 0 :: (cr ++ rest) from by simp]
        rw [parseDetails_cons_none]
        rw [ih cr rest hw (fun w hw2 => hne w (by simp [hw2]))]
        rfl
    | some [] => exact absurd rfl (hne (some []) (by simp))
    | some (e :: es) =>
      simp only [writeDetails, writeNullableText, writeUTF] at h
      by_cases hlen : (e :: es).length > 65535
      · rw [if_pos hlen] at h
        cases h
      · rw [if_neg hlen] at h
        simp only [except_bind_ok] at h
        cases hw : writeDetails ds with
        | error er => rw [hw] at h; cases h
        | ok cr =>
          rw [hw] at h
          simp only [except_bind_ok] at h
          have hc : c = (1 :: utfChunk (e :: es)) ++ cr := by
            cases h
            rfl
          subst hc
          rw [show ((1 :: utfChunk (e :: es)) ++ cr) ++ rest =
              nullChunk (some (e :: es)) ++ (cr ++ rest) from by
            simp [nullChunk]]
          rw [parseDetails_chunk_some _ _ _ (by omega)]
          rw [ih cr rest hw (fun w hw2 => hne w (by simp [hw2]))]
          rfl

/-! ## Decode totality and error characterisation -/


theorem decodeTrack_of_head (b : List Nat) (hd : HeadFields) (rest : List Nat)
    (h : decodeHead b = .ok (hd, rest))
    (hoff : 0 ≤ (4 + (hd.messageSize : Int)) - 8)
    (hlen : (4 + (hd.messageSize : Int)) - 8 + 8 ≤ (b.length : Int)) :
    decodeTrack b = .ok
      { info := { title := hd.title, author := hd.author, length := hd.length,
                  identifier := hd.identifier,
                  isSeekable := (processDetails (parseDetails
                    (detailsRegion b (b.length - rest.length)
                      ((4 + (hd.messageSize : Int)) - 8)))).2.getD (!hd.isStream),
                  isStream := hd.isStream, uri := hd.uri,
                  artworkUrl := hd.artworkUrl, isrc := hd.isrc,
                  sourceName := hd.sourceName,
                  position := toSigned64 (beVal
                    ((b.drop ((4 + (hd.messageSize : Int)) - 8).toNat).take 8)) },
        details := (processDetails (parseDetails
          (detailsRegion b (b.length - rest.length)
            ((4 + (hd.messageSize : Int)) - 8)))).1 } := by
  have hbne : b ≠ [] := by
    intro h0
    rw [h0] at h
    have hdh : decodeHead ([] : List Nat) = .error .eob := rfl
    rw [hdh] at h
    cases h
  have hbempty : b.isEmpty = false := by
    rw [List.isEmpty_eq_false]
    exact hbne
  unfold decodeTrack
  rw [if_neg (by rw [hbempty]; simp), h]
  show finishDecode b hd (b.length - rest.length) = _
  unfold finishDecode
  unfold readLongAt
  rw [if_neg (by omega), if_neg (by omega)]

theorem except_error_bind {ε α β : Type} (e1 : ε) (f : α → Except ε β) :
    ((Except.error e1 : Except ε α) >>= f) = .error e1 := rfl

theorem except_bind_error {ε α β : Type} {x : Except ε α} {f : α → Except ε β}
    {P : ε → Prop} (hx : ∀ e, x = .error e → P e)
    (hf : ∀ a e, f a = .error e → P e) :
    ∀ e, (x >>= f) = .error e → P e := by
  intro e h
  cases hx2 : x with
  | error e1 =>
    rw [hx2, except_error_bind] at h
    cases h
    exact hx _ hx2
  | ok a =>
    rw [hx2] at h
    simp only [except_bind_ok] at h
    exact hf a e h

theorem rByte_error (l : List Nat) : ∀ e, rByte l = .error e → e = .eob := by
  cases l with
  | nil => intro e h; cases h; rfl
  | cons b rest => intro e h; cases h

theorem rInt_error (l : List Nat) : ∀ e, rInt l = .error e → e = .eob := by
  intro e h
  unfold rInt at h
  split at h
  · cases h
  · cases h; rfl

theorem rLong_error (l : List Nat) : ∀ e, rLong l = .error e → e = .eob := by
  intro e h
  unfold rLong at h
  split at h
  · cases h
  · cases h; rfl

theorem rUTF_error (l : List Nat) : ∀ e, rUTF l = .error e → e = .eob := by
  intro e h
  unfold rUTF at h
  split at h
  · split at h
    · cases h
    · cases h; rfl
  · cases h; rfl

theorem rNullableText_error (l : List Nat) :
    ∀ e, rNullableText l = .error e → e = .eob := by
  intro e h
  unfold rNullableText at h
  split at h
  · cases h
    rename_i e1 heq
    exact rByte_error l _ heq
  · rename_i p rest heq
    split at h
    · split at h
      · cases h
        rename_i e2 heq2
        exact rUTF_error _ _ heq2
      · cases h
    · cases h

theorem readVersion_error (iv : Bool) (l : List Nat) :
    ∀ e, readVersion iv l = .error e → e = .eob := by
  intro e h
  unfold readVersion at h
  split at h
  · exact rByte_error l _ h
  · cases h

theorem readOptField_error (c : Bool) (l : List Nat) :
    ∀ e, readOptField c l = .error e → e = .eob := by
  intro e h
  unfold readOptField at h
  split at h
  · exact rNullableText_error l _ h
  · cases h

theorem decodeHead_error (b : List Nat) :
    ∀ e, decodeHead b = .error e → e = .eob := by
  unfold decodeHead
  refine except_bind_error (rInt_error b) ?_
  intro p1
  refine except_bind_error (readVersion_error _ _) ?_
  intro p2
  refine except_bind_error (rUTF_error _) ?_
  intro p3
  refine except_bind_error (rUTF_error _) ?_
  intro p4
  refine except_bind_error (rLong_error _) ?_
  intro p5
  refine except_bind_error (rUTF_error _) ?_
  intro p6
  refine except_bind_error (rByte_error _) ?_
  intro p7
  refine except_bind_error (readOptField_error _ _) ?_
  intro p8
  refine except_bind_error (readOptField_error _ _) ?_
  intro p9
  refine except_bind_error (readOptField_error _ _) ?_
  intro p10
  refine except_bind_error (rUTF_error _) ?_
  intro p11 e h
  cases h

theorem readLongAt_error (b : List Nat) (off : Int) :
    ∀ e, readLongAt b off = .error e → e = .eob ∨ e = .negOffset := by
  intro e h
  unfold readLongAt at h
  split at h
  · cases h
    left
    rfl
  · split at h
    · cases h
      right
      rfl
    · cases h

theorem finishDecode_error (b : List Nat) (hd : HeadFields) (pos : Nat) :
    ∀ e, finishDecode b hd pos = .error e → e = .eob ∨ e = .negOffset := by
  intro e h
  unfold finishDecode at h
  cases h1 : readLongAt b ((4 + hd.messageSize : Int) - 8) with
  | error e1 =>
    rw [h1] at h
    cases h
    exact readLongAt_error _ _ _ h1
  | ok v =>
    rw [h1] at h
    cases h

theorem decodeTrack_error (b : List Nat) :
    ∀ e, decodeTrack b = .error e →
      (b = [] ∧ e = .empty) ∨ e = .eob ∨ e = .negOffset := by
  intro e h
  unfold decodeTrack at h
  by_cases hb : b.isEmpty
  · rw [if_pos hb] at h
    cases h
    left
    exact ⟨List.isEmpty_iff.mp hb, rfl⟩
  · rw [if_neg hb] at h
    cases h1 : decodeHead b with
    | error e1 =>
      rw [h1] at h
      cases h
      right
      left
      exact decodeHead_error b _ h1
    | ok p =>
      rw [h1] at h
      obtain ⟨hd, rest⟩ := p
      right
      exact finishDecode_error _ _ _ _ h

/-! ## Session-store lookup lemmas -/


theorem lookupSession_cons_pos (s : Session) (rest : List Session)
    (sid : String) (h : s.sessionId = sid) :
    lookupSession (s :: rest) sid = some s := by
  unfold lookupSession
  exact List.find?_cons_of_pos _ (by simp [h])

theorem lookupSession_cons_neg (s : Session) (rest : List Session)
    (sid : String) (h : ¬ (s.sessionId = sid)) :
    lookupSession (s :: rest) sid = lookupSession rest sid := by
  unfold lookupSession
  exact List.find?_cons_of_neg _ (by simp [h])

theorem lookupSession_update (store : SessionStore) (sid sid2 : String)
    (f : Session → Session) (hf : ∀ x, (f x).sessionId = x.sessionId) :
    lookupSession (updateSession store sid f) sid2 =
      if sid2 = sid then (lookupSession store sid).map f
      else lookupSession store sid2 := by
  induction store with
  | nil =>
    simp [lookupSession, updateSession]
  | cons s rest ih =>
    by_cases h1 : s.sessionId = sid
    · rw [show updateSession (s :: rest) sid f = f s :: updateSession rest sid f
        from by simp [updateSession, h1]]
      by_cases h2 : sid2 = sid
      · rw [if_pos h2]
        rw [lookupSession_cons_pos _ _ _ (by rw [hf, h1, h2])]
        rw [lookupSession_cons_pos _ _ _ h1]
        rfl
      · rw [if_neg h2]
        rw [lookupSession_cons_neg _ _ _
          (by rw [hf, h1]; exact fun hh => h2 hh.symm)]
        rw [lookupSession_cons_neg _ _ _
          (by rw [h1]; exact fun hh => h2 hh.symm)]
        rw [ih, if_neg h2]
    · rw [show updateSession (s :: rest) sid f = s :: updateSession rest sid f
        from by simp [updateSession, h1]]
      by_cases h2 : sid2 = sid
      · rw [if_pos h2]
        rw [lookupSession_cons_neg _ _ _ (by rw [h2]; exact h1)]
        rw [lookupSession_cons_neg _ _ _ h1]
        rw [ih, if_pos h2]
      · by_cases h3 : s.sessionId = sid2
        · rw [if_neg h2]
          rw [lookupSession_cons_pos _ _ _ h3]
          rw [lookupSession_cons_pos _ _ _ h3]
        · rw [if_neg h2]
          rw [lookupSession_cons_neg _ _ _ h3]
          rw [lookupSession_cons_neg _ _ _ h3]
          rw [ih, if_neg h2]

theorem lookupSession_filter_self (store : SessionStore) (sid : String) :
    lookupSession (store.filter (fun x => !(x.sessionId == sid))) sid = none := by
  induction store with
  | nil => rfl
  | cons s rest ih =>
    by_cases h1 : s.sessionId = sid
    · simp only [List.filter_cons]
      rw [if_neg (by simp [h1])]
      exact ih
    · simp only [List.filter_cons]
      rw [if_pos (by simp [h1])]
      rw [lookupSession_cons_neg _ _ _ h1]
      exact ih

theorem lookupSession_filter_other (store : SessionStore) (sid sid2 : String)
    (h : sid2 ≠ sid) :
    lookupSession (store.filter (fun x => !(x.sessionId == sid))) sid2 =
      lookupSession store sid2 := by
  induction store with
  | nil => rfl
  | cons s rest ih =>
    by_cases h1 : s.sessionId = sid
    · simp only [List.filter_cons]
      rw [if_neg (by simp [h1])]
      rw [ih]
      rw [lookupSession_cons_neg _ _ _ (by rw [h1]; exact fun hh => h hh.symm)]
    · simp only [List.filter_cons]
      rw [if_pos (by simp [h1])]
      by_cases h3 : s.sessionId = sid2
      · rw [lookupSession_cons_pos _ _ _ h3, lookupSession_cons_pos _ _ _ h3]
      · rw [lookupSession_cons_neg _ _ _ h3, lookupSession_cons_neg _ _ _ h3]
        exact ih

/-! ## Empty-string normalisation of nullable fields -/


theorem nullChunk_nullNorm (v : Option JStr) :
    nullChunk (nullNorm v) = nullChunk v := by
  match v with
  | none => rfl
  | some [] => rfl
  | some (c :: cs) =>
    rw [show nullNorm (some (c :: cs)) = some (c :: cs) from by
      unfold nullNorm
      rw [if_neg (by simp)]]

theorem valid_normalize (t : TrackInfo) (hv : ValidTrackInfo t) :
    ValidTrackInfo (normalizeTrack t) := by
  obtain ⟨ht, ha, hid, hsn, hu, haw, hic, hl1, hl2, hp1, hp2⟩ := hv
  refine ⟨ht, ha, hid, hsn, ?_, ?_, ?_, hl1, hl2, hp1, hp2⟩
  · intro s hs
    have hs2 : nullNorm t.uri = some s := by simpa [normalizeTrack] using hs
    unfold nullNorm at hs2
    split at hs2
    · cases hs2
    · exact hu s hs2
  · intro s hs
    have hs2 : nullNorm t.artworkUrl = some s := by
      simpa [normalizeTrack] using hs
    unfold nullNorm at hs2
    split at hs2
    · cases hs2
    · exact haw s hs2
  · intro s hs
    have hs2 : nullNorm t.isrc = some s := by simpa [normalizeTrack] using hs
    unfold nullNorm at hs2
    split at hs2
    · cases hs2
    · exact hic s hs2

theorem noEmpty_normalize (t : TrackInfo) :
    NoEmptyNullable (normalizeTrack t) := by
  refine ⟨?_, ?_, ?_⟩ <;>
    · simp only [normalizeTrack, nullNorm]
      split
      · simp
      · assumption

theorem encBody_normalize (t : TrackInfo) :
    encBody (normalizeTrack t) = encBody t := by
  simp [encBody, fieldsChunk, sentinelChunk, normalizeTrack, nullChunk_nullNorm]

theorem roundTrip_normalize (t : TrackInfo) (hv : ValidTrackInfo t) :
    roundTrip t [] = some { info := normalizeTrack t, details := [] } := by
  have hv2 := valid_normalize t hv
  have h1 := roundTrip_eq (normalizeTrack t) hv2 (noEmpty_normalize t)
  have h2 : roundTrip t [] = roundTrip (normalizeTrack t) [] := by
    unfold roundTrip
    rw [encodeTrack_eq t hv, encodeTrack_eq (normalizeTrack t) hv2,
      encBody_normalize]
  rw [h2, h1]

/-! ## Further helper lemmas for the claims -/

theorem rUTF_ok_length (l : List Nat) (s : JStr) (rest : List Nat)
    (h : rUTF l = .ok (s, rest)) : 2 + s.length + rest.length = l.length := by
  unfold rUTF at h
  split at h
  · split at h
    · cases h
      rename_i h1 h2
      simp only [List.length_take, List.length_drop]
      omega
    · cases h
  · cases h

theorem readLongAt_ok (b : List Nat) (off : Int) (v : Int)
    (h : readLongAt b off = .ok v) :
    0 ≤ off ∧ off + 8 ≤ (b.length : Int) := by
  unfold readLongAt at h
  split at h
  · cases h
  · split at h
    · cases h
    · rename_i h1 h2
      omega

theorem lookupSession_configureResuming (store : SessionStore)
    (sid sid2 : String) (timeout : JSNum) :
    lookupSession (configureResuming store sid timeout) sid2 =
      if sid2 = sid then
        (lookupSession store sid).map (fun s =>
          { s with resumeEnabled := true,
                   resumeTimeoutMs := jsMul (jsMax1 timeout) (.num 1000) })
      else lookupSession store sid2 := by
  unfold configureResuming
  exact lookupSession_update _ _ _ _ (fun _ => rfl)

theorem handleClose_found (store : SessionStore) (sid : String) (now : Int)
    (s : Session) (h : lookupSession store sid = some s) :
    handleClose store sid now =
      if s.resumeEnabled then
        updateSession store sid (fun x =>
          { x with ws := none,
                   resumeDeadline := some (jsAdd (.num now) x.resumeTimeoutMs) })
      else store.filter (fun x => !(x.sessionId == sid)) := by
  unfold handleClose
  rw [h]

theorem lookupSession_detachSuspend (store : SessionStore)
    (sid sid2 : String) (now : Int) :
    lookupSession (updateSession store sid (fun x =>
      { x with ws := none,
               resumeDeadline := some (jsAdd (.num now) x.resumeTimeoutMs) }))
      sid2 =
      if sid2 = sid then
        (lookupSession store sid).map (fun x =>
          { x with ws := none,
                   resumeDeadline := some (jsAdd (.num now) x.resumeTimeoutMs) })
      else lookupSession store sid2 :=
  lookupSession_update _ _ _ _ (fun _ => rfl)

/-! # Claim theorems -/

/-- C1 (counterexample): the round-trip claim fails as stated.
`c1cexTrack` is a valid `TrackInfo` whose string fields all fit 65535
UTF-8 bytes, but its present-and-empty `uri` is written as absent by
`writeNullableText` and decodes to `null`, so `decode(encode(t)).info`
differs from `t` on the `uri` field. -/
theorem c1_counterexample :
    ValidTrackInfo c1cexTrack ∧
    encodeTrack c1cexTrack [] = .ok c1cexBytes ∧
    decodeTrack c1cexBytes =
      .ok { info := { c1cexTrack with uri := none }, details := [] } ∧
    ({ c1cexTrack with uri := none } : TrackInfo) ≠ c1cexTrack := by
  refine ⟨by decide, by decide, by decide, by decide⟩

/-- C1 (amended): for every valid `TrackInfo` whose string fields are
UTF-8 encodable in at most 65535 bytes and whose nullable fields (`uri`,
`artworkUrl`, `isrc`) are not present-but-empty strings,
`decodeTrack (encodeTrack t)` succeeds and its `info` equals `t`
field-for-field, including `isSeekable` exactly: the sentinel entry
`__seekable:0` / `__seekable:1` is appended on encode only when the
effective `isSeekable` differs from `!isStream`, and is stripped and
applied as an override on decode. -/
theorem c1_roundtrip (t : TrackInfo) (hv : ValidTrackInfo t)
    (hne : NoEmptyNullable t) :
    roundTrip t [] = some { info := t, details := [] } :=
  roundTrip_eq t hv hne

/-- C1 witness: the round trip at a concrete track exercising the
sentinel (`isSeekable = false`, `isStream = false`) and present nullable
fields. -/
theorem c1_roundtrip_witness :
    ValidTrackInfo
      { title := [72, 105], author := [65], length := 1234,
        identifier := [105, 100], isSeekable := false, isStream := false,
        uri := some [117], artworkUrl := none, isrc := some [105],
        sourceName := [115, 99], position := -5 } ∧
    roundTrip
      { title := [72, 105], author := [65], length := 1234,
        identifier := [105, 100], isSeekable := false, isStream := false,
        uri := some [117], artworkUrl := none, isrc := some [105],
        sourceName := [115, 99], position := -5 } [] =
      some { info := { title := [72, 105], author := [65], length := 1234,
                       identifier := [105, 100], isSeekable := false,
                       isStream := false, uri := some [117],
                       artworkUrl := none, isrc := some [105],
                       sourceName := [115, 99], position := -5 },
             details := [] } :=
  ⟨by decide, c1_roundtrip _ (by decide) (by decide)⟩

/-- C2 (code bug): a session made resume-enabled by a `configureResuming`
frame and still ACTIVE (socket attached, deadline cleared on open) IS
resumed by a second upgrade presenting its `sessionId` and `userId`: the
outcome carries `resumed = true` and the same `sessionId` instead of a
fresh non-resumed session — `handleWebSocketUpgrade` never checks whether
a live socket is attached.  Scenario: fresh connect creating session
`"s1"`, open attaching socket 1, `configureResuming`, then a second
upgrade while the first socket is still attached. -/
theorem c2_active_session_resumed_bug :
    ((lookupSession c2Store "s1").map (fun s => s.ws)) = some (some 1) ∧
    (handleUpgrade c2Store (some "s1") "u" "c" 100 "s2").resumed = true ∧
    (handleUpgrade c2Store (some "s1") "u" "c" 100 "s2").sessionId = "s1" := by
  refine ⟨by decide, by decide, by decide⟩

/-- C3 (code bug): a suspended session whose `resumeDeadline` (100) has
elapsed at `now = 200` is not resumed, but the lookup leaves it in the
store: the upgrade only appends a fresh session and never deletes the
expired one, and the code has no sweep, so the store retains expired
sessions indefinitely. -/
theorem c3_expired_session_retained :
    resumeGuard expiredSession 200 = false ∧
    (handleUpgrade [expiredSession] (some "s1") "u" "c" 200 "s2").resumed
      = false ∧
    lookupSession
      (handleUpgrade [expiredSession] (some "s1") "u" "c" 200 "s2").store
      "s1" = some expiredSession := by
  refine ⟨by decide, by decide, by decide⟩

/-- C4: a stored session whose `userId` differs from the request's
`User-Id` header is never resumed, whatever its `resumeEnabled` flag or
deadline state: the upgrade outcome is a fresh session under the fresh id
with `resumed = false` (the value echoed by the ready frame on open). -/
theorem c4_user_mismatch_never_resumes (store : SessionStore)
    (sid uid cn : String) (now : Int) (fid : String) (s : Session)
    (hlookup : lookupSession store sid = some s) (hmismatch : s.userId ≠ uid) :
    handleUpgrade store (some sid) uid cn now fid =
      { resumed := false, sessionId := fid,
        store := store ++ [freshSession fid uid cn] } := by
  have hbeq : (s.userId == uid) = false := by
    simp [hmismatch]
  simp [handleUpgrade, hlookup, hbeq]

/-- C4 witness: a resume-enabled, deadline-free suspended session owned
by `"alice"` is not resumed by `"bob"`. -/
theorem c4_user_mismatch_witness :
    handleUpgrade [aliceSession] (some "s1") "bob" "c" 0 "s9" =
      { resumed := false, sessionId := "s9",
        store := [aliceSession] ++ [freshSession "s9" "bob" "c"] } :=
  c4_user_mismatch_never_resumes [aliceSession] "s1" "bob" "c" 0 "s9"
    aliceSession (by decide) (by decide)

/-- C5: the details-region phase of `decodeTrack` is total.  First
conjunct: whenever the head parse succeeds and the fixed 8-byte tail fits
the buffer, the decode succeeds for any content of the details region
(truncation at any byte offset included), and `startPositionMs` is read at
the fixed offset `headerEnd - 8 = (4 + messageSize) - 8`, independent of
how many detail bytes the region parse consumed.  Second conjunct: a
region holding well-formed entries followed by an entry truncated before
its declared payload parses to exactly the entries decoded so far. -/
theorem c5_truncation_safety :
    (∀ (b : List Nat) (hd : HeadFields) (rest : List Nat),
      decodeHead b = .ok (hd, rest) →
      0 ≤ (4 + (hd.messageSize : Int)) - 8 →
      (4 + (hd.messageSize : Int)) - 8 + 8 ≤ (b.length : Int) →
      decodeTrack b = .ok
        { info := { title := hd.title, author := hd.author,
                    length := hd.length, identifier := hd.identifier,
                    isSeekable := (processDetails (parseDetails
                      (detailsRegion b (b.length - rest.length)
                        ((4 + (hd.messageSize : Int)) - 8)))).2.getD
                      (!hd.isStream),
                    isStream := hd.isStream, uri := hd.uri,
                    artworkUrl := hd.artworkUrl, isrc := hd.isrc,
                    sourceName := hd.sourceName,
                    position := toSigned64 (beVal
                      ((b.drop ((4 + (hd.messageSize : Int)) - 8).toNat).take 8)) },
          details := (processDetails (parseDetails
            (detailsRegion b (b.length - rest.length)
              ((4 + (hd.messageSize : Int)) - 8)))).1 }) ∧
    (∀ (ds : List (Option JStr)) (c : List Nat) (hi lo : Nat) (rest2 : List Nat),
      writeDetails ds = .ok c → (∀ v ∈ ds, v ≠ some []) →
      rest2.length < hi * 256 + lo →
      parseDetails (c ++ (1 :: hi :: lo :: rest2)) = ds) := by
  constructor
  · exact decodeTrack_of_head
  · intro ds c hi lo rest2 hw hne htr
    rw [parseDetails_writeDetails ds c _ hw hne, parseDetails_truncated _ _ _ htr]
    simp

/-- C5 witness: `wbC5` declares a 5-byte detail payload with a single
byte available before the fixed tail; the decode succeeds anyway and
`startPositionMs` is the value 7 stored at the fixed offset 29. -/
theorem c5_truncation_safety_witness :
    decodeTrack wbC5 = .ok
      { info := { title := [], author := [], length := 0, identifier := [],
                  isSeekable := true, isStream := false, uri := none,
                  artworkUrl := none, isrc := none, sourceName := [],
                  position := 7 },
        details := [] } ∧
    parseDetails ([0] ++ (1 :: 0 :: 5 :: [65])) = [none] := by
  constructor
  · have h := c5_truncation_safety.1 wbC5 wbC5Head
      [1, 0, 5, 65, 0, 0, 0, 0, 0, 0, 0, 7] (by decide) (by decide) (by decide)
    exact h.trans (by decide)
  · exact c5_truncation_safety.2 [none] [0] 0 5 [65] (by decide) (by decide)
      (by decide)

/-- C6 (counterexample): the claim fails as stated.  `c6cex` declares
`messageSize = 10` (declared extent 14), yet its field reads reach byte 21
and the decode succeeds — bounds are checked against the actual buffer
length, not the declared extent; truncating the buffer to its declared
extent makes the same decode fail with an out-of-bounds error, showing
that reads past the declared extent were made and succeeded. -/
theorem c6_counterexample :
    decodeTrack c6cex = .ok c6cexRecord ∧
    declaredEnd c6cex = 14 ∧
    c6cex.length = 21 ∧
    decodeTrack (c6cex.take (declaredEnd c6cex)) = .error .eob := by
  refine ⟨by decide, by decide, by decide, by decide⟩

/-- C6 (amended): `decodeTrack` fails exactly on empty input or a read
outside the ACTUAL buffer: the empty-input error occurs iff the input is
empty; every other failure is an out-of-bounds read (`eob`) or the
negative final-read offset (`negOffset`); a successful final position read
lies entirely within the actual buffer; and a successful `read.utf`
consumes only bytes of the buffer it was given. -/
theorem c6_bounds :
    (decodeTrack [] = .error .empty) ∧
    (∀ (b : List Nat) (e : DecErr), decodeTrack b = .error e →
      (b = [] ∧ e = .empty) ∨ e = .eob ∨ e = .negOffset) ∧
    (∀ (b : List Nat) (off : Int) (v : Int), readLongAt b off = .ok v →
      0 ≤ off ∧ off + 8 ≤ (b.length : Int)) ∧
    (∀ (l : List Nat) (s : JStr) (rest : List Nat), rUTF l = .ok (s, rest) →
      2 + s.length + rest.length = l.length) :=
  ⟨rfl, fun b e h => decodeTrack_error b e h,
   fun b off v h => readLongAt_ok b off v h,
   fun l s rest h => rUTF_ok_length l s rest h⟩

/-- C6 witness: the classification applied to the 1-byte buffer `[0]`
(an out-of-bounds header read), and the final-read bounds on `c6cex`. -/
theorem c6_bounds_witness :
    ((([0] : List Nat) = [] ∧ DecErr.eob = DecErr.empty) ∨
      DecErr.eob = DecErr.eob ∨ DecErr.eob = DecErr.negOffset) ∧
    ((0 : Int) ≤ 6 ∧ (6 : Int) + 8 ≤ ((c6cex.length : Nat) : Int)) := by
  constructor
  · exact c6_bounds.2.1 [0] .eob (by decide)
  · exact c6_bounds.2.2.1 c6cex 6 0 (by decide)

/-- C7: when a socket attached to a session closes, the session is kept
with its socket detached and `resumeDeadline = now + resumeTimeoutMs` if
`resumeEnabled`, and removed from the store immediately otherwise; the
close modifies no other session of the store. -/
theorem c7_close_semantics (store : SessionStore) (sid : String) (now : Int)
    (s : Session) (h : lookupSession store sid = some s) :
    (s.resumeEnabled = true →
      lookupSession (handleClose store sid now) sid =
        some { s with ws := none,
                      resumeDeadline :=
                        some (jsAdd (.num now) s.resumeTimeoutMs) }) ∧
    (s.resumeEnabled = false →
      lookupSession (handleClose store sid now) sid = none) ∧
    (∀ sid2, sid2 ≠ sid →
      lookupSession (handleClose store sid now) sid2 =
        lookupSession store sid2) := by
  refine ⟨?_, ?_, ?_⟩
  · intro hr
    rw [handleClose_found store sid now s h, if_pos hr,
      lookupSession_detachSuspend, if_pos rfl, h]
    rfl
  · intro hr
    rw [handleClose_found store sid now s h, if_neg (by simp [hr])]
    exact lookupSession_filter_self store sid
  · intro sid2 hne
    rw [handleClose_found store sid now s h]
    by_cases hr : s.resumeEnabled
    · rw [if_pos hr, lookupSession_detachSuspend, if_neg hne]
    · rw [if_neg hr]
      exact lookupSession_filter_other store sid sid2 hne

/-- C7 witness: closing the socket of the resume-enabled `aliceSession`
at time 50 suspends it with deadline `50 + 5000`, leaving a lookup of a
different id unchanged. -/
theorem c7_close_semantics_witness :
    lookupSession (handleClose [aliceSession] "s1" 50) "s1" =
      some { aliceSession with
               ws := none,
               resumeDeadline :=
                 some (jsAdd (.num 50) aliceSession.resumeTimeoutMs) } ∧
    lookupSession (handleClose [aliceSession] "s1" 50) "zz" =
      lookupSession [aliceSession] "zz" := by
  constructor
  · exact (c7_close_semantics [aliceSession] "s1" 50 aliceSession
      (by decide)).1 (by decide)
  · exact (c7_close_semantics [aliceSession] "s1" 50 aliceSession
      (by decide)).2.2 "zz" (by decide)

/-- C8: `findManager` returns the first registered manager (in
registration order) whose `canHandle` accepts the identifier, and `none`
when no predicate matches; `resolve` fails with the no-source error
exactly when `findManager` returns `none` and otherwise delegates the
identifier unchanged to the chosen manager's own resolve; on the
no-source case `/v4/loadtracks` answers 200 with `loadType "error"`,
`severity "common"` and `cause "Unknown"`. -/
theorem c8_registry_dispatch :
    (∀ (pre : List SourceManager) (m : SourceManager)
        (post : List SourceManager) (url : String),
      (∀ m2 ∈ pre, m2.canHandle url = false) → m.canHandle url = true →
      findManager (pre ++ m :: post) url = some m) ∧
    (∀ (regs : List SourceManager) (url : String),
      (∀ m ∈ regs, m.canHandle url = false) → findManager regs url = none) ∧
    (∀ (regs : List SourceManager) (url : String),
      findManager regs url = none →
      registryResolve regs url = .noSource url ∧
      loadTracksRoute regs (some url) =
        { status := 200, loadType := some "error", severity := some "common",
          cause := some "Unknown" }) ∧
    (∀ (regs : List SourceManager) (url : String) (m : SourceManager),
      findManager regs url = some m →
      registryResolve regs url = .resolved (m.resolveFn url)) := by
  refine ⟨?_, ?_, ?_, ?_⟩
  · intro pre
    induction pre with
    | nil =>
      intro m post url hpre hm
      unfold findManager
      rw [List.nil_append]
      exact List.find?_cons_of_pos _ hm
    | cons p pre ih =>
      intro m post url hpre hm
      unfold findManager
      rw [List.cons_append]
      rw [List.find?_cons_of_neg _ (by rw [hpre p (by simp)]; simp)]
      exact ih m post url (fun m2 hm2 => hpre m2 (by simp [hm2])) hm
  · intro regs url h
    unfold findManager
    rw [List.find?_eq_none]
    intro x hx
    rw [h x hx]
    simp
  · intro regs url hnone
    constructor
    · unfold registryResolve
      rw [hnone]
    · unfold loadTracksRoute
      show (match findManager regs url with
        | none =>
          ({ status := 200, loadType := some "error",
             severity := some "common",
             cause := some "Unknown" } : RouteResponse)
        | some m =>
          match m.resolveFn url with
          | .single _ =>
            { status := 200, loadType := some "track", severity := none,
              cause := none }
          | .multiple [] =>
            { status := 200, loadType := some "empty", severity := none,
              cause := none }
          | .multiple _ =>
            { status := 200, loadType := some "search", severity := none,
              cause := none }) =
        ({ status := 200, loadType := some "error", severity := some "common",
           cause := some "Unknown" } : RouteResponse)
      rw [hnone]
  · intro regs url m hsome
    unfold registryResolve
    rw [hsome]

/-- C8 witness: with `mgrA` (handles only `"ya"`) registered before
`mgrB` (handles only `"x"`), dispatch of `"x"` selects `mgrB`; the
unhandled identifier `"zz"` produces the no-source error and the
documented `/v4/loadtracks` error shape. -/
theorem c8_registry_dispatch_witness :
    findManager ([mgrA] ++ mgrB :: []) "x" = some mgrB ∧
    registryResolve [mgrA, mgrB] "zz" = .noSource "zz" ∧
    loadTracksRoute [mgrA, mgrB] (some "zz") =
      { status := 200, loadType := some "error", severity := some "common",
        cause := some "Unknown" } ∧
    registryResolve [mgrA, mgrB] "x" = .resolved (mgrB.resolveFn "x") := by
  have hnone : findManager [mgrA, mgrB] "zz" = none := rfl
  have hsome : findManager [mgrA, mgrB] "x" = some mgrB := rfl
  refine ⟨?_, ?_, ?_, ?_⟩
  · exact c8_registry_dispatch.1 [mgrA] mgrB [] "x"
      (by intro m2 hm2; rw [List.mem_singleton] at hm2; subst hm2; rfl) rfl
  · exact (c8_registry_dispatch.2.2.1 [mgrA, mgrB] "zz" hnone).1
  · exact (c8_registry_dispatch.2.2.1 [mgrA, mgrB] "zz" hnone).2
  · exact c8_registry_dispatch.2.2.2 [mgrA, mgrB] "x" mgrB hsome

/-- C9: a `configureResuming` frame whose timeout converts to `NaN` sets
`resumeTimeoutMs` to `NaN` (not the floor 1000, since `Math.max(1, NaN)`
is `NaN`); the next disconnect sets `resumeDeadline = now + NaN = NaN`;
and the resume guard `!resumeDeadline || resumeDeadline > now` treats the
`NaN` deadline as unset (`NaN` is falsy), so the session resumes at any
later time and is never considered expired. -/
theorem c9_nan_timeout (store : SessionStore) (sid uid cn fid : String)
    (s : Session) (now1 : Int)
    (h : lookupSession store sid = some s) (huid : s.userId = uid)
    (hsid : s.sessionId = sid) :
    (jsMul (jsMax1 .nan) (.num 1000) = .nan) ∧
    (lookupSession (configureResuming store sid .nan) sid =
      some { s with resumeEnabled := true, resumeTimeoutMs := JSNum.nan }) ∧
    (lookupSession
        (handleClose (configureResuming store sid .nan) sid now1) sid =
      some { s with resumeEnabled := true, resumeTimeoutMs := JSNum.nan,
                    ws := none, resumeDeadline := some JSNum.nan }) ∧
    (∀ now2 : Int,
      (handleUpgrade (handleClose (configureResuming store sid .nan) sid now1)
          (some sid) uid cn now2 fid).resumed = true ∧
      (handleUpgrade (handleClose (configureResuming store sid .nan) sid now1)
          (some sid) uid cn now2 fid).sessionId = sid) := by
  have hcfg : lookupSession (configureResuming store sid .nan) sid =
      some { s with resumeEnabled := true, resumeTimeoutMs := JSNum.nan } := by
    rw [lookupSession_configureResuming, if_pos rfl, h]
    rfl
  have hst2 : lookupSession
      (handleClose (configureResuming store sid .nan) sid now1) sid =
      some { s with resumeEnabled := true, resumeTimeoutMs := JSNum.nan,
                    ws := none, resumeDeadline := some JSNum.nan } := by
    rw [handleClose_found _ _ _ _ hcfg, if_pos rfl,
      lookupSession_detachSuspend, if_pos rfl, hcfg]
    rfl
  refine ⟨rfl, hcfg, hst2, ?_⟩
  intro now2
  have hbeq : (Session.userId
      { s with resumeEnabled := true, resumeTimeoutMs := JSNum.nan,
               ws := none, resumeDeadline := some JSNum.nan } == uid) = true := by
    simp [huid]
  constructor
  · simp [handleUpgrade, hst2, hbeq, resumeGuard, jsFalsy]
  · simp [handleUpgrade, hst2, hbeq, resumeGuard, jsFalsy]
    exact hsid

/-- C9 witness: the scenario run from the one-session store holding
`aliceSession`: after a `NaN` timeout configuration and a disconnect at
time 0, the upgrade resumes at every later time. -/
theorem c9_nan_timeout_witness :
    (jsMul (jsMax1 .nan) (.num 1000) = .nan) ∧
    (∀ now2 : Int,
      (handleUpgrade (handleClose (configureResuming [aliceSession] "s1" .nan)
          "s1" 0) (some "s1") "alice" "c" now2 "s7").resumed = true) := by
  constructor
  · exact (c9_nan_timeout [aliceSession] "s1" "alice" "c" "s7" aliceSession 0
      (by decide) (by decide) (by decide)).1
  · intro now2
    exact ((c9_nan_timeout [aliceSession] "s1" "alice" "c" "s7" aliceSession 0
      (by decide) (by decide) (by decide)).2.2.2 now2).1

/-- C10: `writeNullableText` writes the absence flag `0` for `null`,
`undefined` and the empty string; consequently the round trip of any
valid track maps each present-but-empty nullable field (`uri`,
`artworkUrl`, `isrc`) to `null` while leaving the rest of the record
intact (`normalizeTrack` is exactly that empty-to-null normalisation). -/
theorem c10_empty_nullable :
    (writeNullableText none = .ok [0]) ∧
    (writeNullableText (some []) = .ok [0]) ∧
    (∀ t : TrackInfo, ValidTrackInfo t →
      roundTripInfo t [] = some (normalizeTrack t)) ∧
    (∀ t : TrackInfo, t.uri = some [] → (normalizeTrack t).uri = none) ∧
    (∀ t : TrackInfo, t.artworkUrl = some [] →
      (normalizeTrack t).artworkUrl = none) ∧
    (∀ t : TrackInfo, t.isrc = some [] → (normalizeTrack t).isrc = none) := by
  refine ⟨rfl, rfl, ?_, ?_, ?_, ?_⟩
  · intro t hv
    rw [roundTripInfo, roundTrip_normalize t hv]
    rfl
  · intro t h
    simp [normalizeTrack, nullNorm, h]
  · intro t h
    simp [normalizeTrack, nullNorm, h]
  · intro t h
    simp [normalizeTrack, nullNorm, h]

/-- C10 witness: the track with an empty-string `uri` round-trips to the
same record with `uri = null`. -/
theorem c10_empty_nullable_witness :
    ValidTrackInfo c1cexTrack ∧
    roundTripInfo c1cexTrack [] = some (normalizeTrack c1cexTrack) ∧
    (normalizeTrack c1cexTrack).uri = none := by
  refine ⟨by decide, ?_, ?_⟩
  · exact c10_empty_nullable.2.2.1 c1cexTrack (by decide)
  · exact c10_empty_nullable.2.2.2.1 c1cexTrack (by decide)

end Tooka
